import Mathlib

/-!
Verification of the restaurant table-allocation engine.

The development shallowly embeds the allocation logic of
`app/reservation_service.py` (view-based tables) and
`app/services/booking_service.py` (section-based tables) of the
repository.  Timestamps are modelled as integers counting minutes
(`timedelta(hours=2)` becomes `120`); SQL `BETWEEN` is inclusive on both
ends, exactly as in the source queries.  Database sessions are modelled
as explicit record states; `ORDER BY` clauses become insertion sorts on
the relevant key.
-/

/-- A row of the `tables` table (`app/models.py`, class `Table`):
integer id, seating capacity, view name, availability flag. -/
structure RTable where
  id : Nat
  capacity : Nat
  view : String
  is_available : Bool
  deriving Repr, DecidableEq

/-- A row of the `reservations` table (`app/models.py`, class
`Reservation`), with its `ReservationItem` rows inlined as
`(menu_item_id, quantity)` pairs. -/
structure Reservation where
  id : Nat
  customer_name : String
  customer_email : String
  customer_phone : String
  reservation_time : Int
  party_size : Nat
  table_id : Nat
  status : String
  created_at : Int
  items : List (Nat × Nat)
  deriving Repr, DecidableEq

/-- The database state seen by `reservation_service.py`. -/
structure DB where
  tables : List RTable
  reservations : List Reservation
  deriving Repr, DecidableEq

/-- `schemas.TableSuggestion`. `other_view_suggestions = []` models the
Python `None`/empty cases uniformly. -/
structure TableSuggestion where
  tables : List RTable
  total_capacity : Nat
  is_exact_match : Bool
  message : String
  other_view_suggestions : List RTable
  note : Option String
  deriving Repr, DecidableEq

/-- `schemas.ReservationCreate`: the inbound booking request. -/
structure ReservationCreate where
  customer_name : String
  customer_email : String
  customer_phone : String
  reservation_time : Int
  party_size : Nat
  preferred_view : Option String
  table_id : Option Nat
  items : List (Nat × Nat)
  deriving Repr, DecidableEq

/-- `schemas.ReservationResponse` together with the resulting committed
database state (`db`): the state after the session's commit/rollback. -/
structure CreateResult where
  db : DB
  success : Bool
  message : String
  reservation : Option Reservation
  suggestions : Option TableSuggestion
  deriving Repr, DecidableEq

/-! ### Sorting (embedding of SQL `ORDER BY` / Python `sorted`) -/

/-- Insert into a key-ascending sorted list (stable). -/
def insKey (key : α → Nat) (a : α) : List α → List α
  | [] => [a]
  | b :: bs => if key a ≤ key b then a :: b :: bs else b :: insKey key a bs

/-- Stable insertion sort, ascending by `key`; models `ORDER BY key`. -/
def sortKey (key : α → Nat) : List α → List α
  | [] => []
  | a :: as => insKey key a (sortKey key as)

/-- Insert into a key-descending sorted list (stable). -/
def insKeyDesc (key : α → Nat) (a : α) : List α → List α
  | [] => [a]
  | b :: bs => if key b ≤ key a then a :: b :: bs else b :: insKeyDesc key a bs

/-- Stable insertion sort, descending by `key`; models
`ORDER BY key DESC` and `sorted(..., reverse=True)`. -/
def sortKeyDesc (key : α → Nat) : List α → List α
  | [] => []
  | a :: as => insKeyDesc key a (sortKeyDesc key as)

theorem mem_insKey (key : α → Nat) (a b : α) (l : List α) :
    b ∈ insKey key a l ↔ b = a ∨ b ∈ l := by
  induction l with
  | nil => simp [insKey]
  | cons c cs ih =>
      simp only [insKey]
      split
      · simp
      · simp [ih]; tauto

theorem mem_sortKey (key : α → Nat) (b : α) (l : List α) :
    b ∈ sortKey key l ↔ b ∈ l := by
  induction l with
  | nil => simp [sortKey]
  | cons a as ih => simp [sortKey, mem_insKey, ih]

theorem mem_insKeyDesc (key : α → Nat) (a b : α) (l : List α) :
    b ∈ insKeyDesc key a l ↔ b = a ∨ b ∈ l := by
  induction l with
  | nil => simp [insKeyDesc]
  | cons c cs ih =>
      simp only [insKeyDesc]
      split
      · simp
      · simp [ih]; tauto

theorem mem_sortKeyDesc (key : α → Nat) (b : α) (l : List α) :
    b ∈ sortKeyDesc key l ↔ b ∈ l := by
  induction l with
  | nil => simp [sortKeyDesc]
  | cons a as ih => simp [sortKeyDesc, mem_insKeyDesc, ih]

/-- The head of a key-sorted list has minimal key among all elements. -/
theorem sortKey_head_min (key : α → Nat) (l : List α) (h : α) (t : List α)
    (hs : sortKey key l = h :: t) (b : α) (hb : b ∈ l) : key h ≤ key b := by
  induction l generalizing h t with
  | nil => cases hb
  | cons a as ih =>
      simp only [sortKey] at hs
      cases hm : sortKey key as with
      | nil =>
          rw [hm] at hs
          simp only [insKey] at hs
          injection hs with h1 _
          subst h1
          rcases List.mem_cons.mp hb with hba | hbas
          · rw [hba]
          · exfalso
            have hmem : b ∈ sortKey key as := (mem_sortKey key b as).mpr hbas
            rw [hm] at hmem
            cases hmem
      | cons h2 t2 =>
          rw [hm] at hs
          simp only [insKey] at hs
          by_cases hle : key a ≤ key h2
          · rw [if_pos hle] at hs
            injection hs with h1 _
            subst h1
            rcases List.mem_cons.mp hb with hba | hbas
            · rw [hba]
            · have := ih h2 t2 hm hbas
              omega
          · rw [if_neg hle] at hs
            injection hs with h1 _
            subst h1
            rcases List.mem_cons.mp hb with hba | hbas
            · rw [hba]; omega
            · exact ih h2 t2 hm hbas

/-! ### Time-window conflict checker (`reservation_service.py`) -/

/-- The overlap query of `create_reservation` / `reschedule_reservation`
(`reservation_service.py`, lines 196-200): is there a `confirmed`
reservation on table `tid` whose `reservation_time` lies in the
inclusive window `[time - 2h, time + 2h]`? -/
def conflict_exists (resvs : List Reservation) (tid : Nat) (time : Int) : Bool :=
  resvs.any fun r =>
    r.table_id = tid && r.status = "confirmed" &&
      time - 120 ≤ r.reservation_time && r.reservation_time ≤ time + 120

/-- The spec's `IsTableFree(tableId, candidateTime)`: the availability
check, true iff the overlap query finds nothing. -/
def is_table_free (resvs : List Reservation) (tid : Nat) (time : Int) : Bool :=
  ! conflict_exists resvs tid time

/-- The `booked_tables_query` of `get_available_tables`
(`reservation_service.py`, lines 33-36): table ids of all confirmed
reservations inside the ±2h window. -/
def bookedTableIds (resvs : List Reservation) (time : Int) : List Nat :=
  (resvs.filter fun r =>
    r.status = "confirmed" &&
      time - 120 ≤ r.reservation_time && r.reservation_time ≤ time + 120).map
    (fun r => r.table_id)

/-- The base query of `get_available_tables` (lines 39-46): available
tables not booked in the window, optionally filtered by view. -/
def availBase (db : DB) (time : Int) (view : Option String) : List RTable :=
  let booked := bookedTableIds db.reservations time
  let base := db.tables.filter fun t => t.is_available && ! booked.contains t.id
  match view with
  | some v => base.filter fun t => t.view = v
  | none => base

/-- `reservation_service.get_available_tables` (lines 8-73).  Returns
the candidate table list and the `is_exact_match` flag.  The Python
`max_capacity or party_size * 2` truthiness (None or 0 both fall back)
is modelled explicitly. -/
def get_available_tables (db : DB) (party : Nat) (time : Int)
    (view : Option String) (maxCap : Option Nat) : List RTable × Bool :=
  let q := availBase db time view
  let capBound := match maxCap with
    | some m => if m = 0 then party * 2 else m
    | none => party * 2
  let exactMatches := sortKey (fun t => t.capacity)
    (q.filter fun t => party ≤ t.capacity && t.capacity ≤ capBound)
  if exactMatches ≠ [] then
    (exactMatches, true)
  else
    let tryCombine := match maxCap with
      | some m => m = 0 || m < party * 2
      | none => true
    let smaller := sortKeyDesc (fun t => t.capacity)
      (q.filter fun t => t.capacity < party && 2 ≤ t.capacity)
    if tryCombine && smaller ≠ [] then
      (smaller, false)
    else
      (sortKey (fun t => t.capacity) (q.filter fun t => party < t.capacity), false)

/-- Total capacity of a table list (`sum(t.capacity for t in ...)`). -/
def sumCap (l : List RTable) : Nat :=
  (l.map fun t => t.capacity).sum

/-- The greedy combination loop of `find_best_table_combination`
(lines 108-124): walk the capacity-descending table list, keeping a
table whenever its capacity fits into the remaining head count, and
stop as soon as the selection covers the party. -/
def comboLoop (party : Nat) : List RTable → Nat → List RTable → List RTable
  | [], _, sel => sel
  | t :: rest, remaining, sel =>
    if remaining = 0 then sel
    else
      let step := if t.capacity ≤ remaining
        then (sel ++ [t], remaining - t.capacity)
        else (sel, remaining)
      if party ≤ sumCap step.1 then step.1
      else comboLoop party rest step.2 step.1

/-- The empty-handed fallback of `find_best_table_combination`
(lines 134-153): no allocation, other-view suggestions when a view was
requested. -/
def fallbackSuggestion (db : DB) (party : Nat) (time : Int)
    (view : Option String) : TableSuggestion :=
  let others := match view with
    | some _ => (get_available_tables db party time none none).1.take 5
    | none => []
  { tables := []
    total_capacity := 0
    is_exact_match := false
    message := "Sorry, we couldn't find any available tables for your party size at the requested time."
    other_view_suggestions := others
    note := if view.isSome && ! others.isEmpty
      then some "No tables for the requested view. Here are options in other views."
      else none }

/-- `reservation_service.find_best_table_combination` (lines 75-153). -/
def find_best_table_combination (db : DB) (party : Nat) (time : Int)
    (view : Option String) : TableSuggestion :=
  match get_available_tables db party time view none with
  | (t :: _, true) =>
      { tables := [t]
        total_capacity := t.capacity
        is_exact_match := true
        message := "Perfect match found!"
        other_view_suggestions := []
        note := none }
  | ([], true) => fallbackSuggestion db party time view
  | (ts, false) =>
      if ts.isEmpty then fallbackSuggestion db party time view
      else
        let sel := comboLoop party (sortKeyDesc (fun t => t.capacity) ts) party []
        if ! sel.isEmpty && party ≤ sumCap sel then
          { tables := sel
            total_capacity := sumCap sel
            is_exact_match := false
            message := "We can accommodate your party with multiple tables."
            other_view_suggestions := []
            note := none }
        else fallbackSuggestion db party time view

/-! ### Reservation lifecycle (`reservation_service.py`) -/

/-- Next autoincrement id for a reservation row. -/
def nextId (resvs : List Reservation) : Nat :=
  (resvs.map fun r => r.id).foldl max 0 + 1

/-- The reservation row built by `create_reservation` (lines 217-225 /
286-294): status `confirmed`, pre-order items kept when their quantity
is positive (lines 248-260). -/
def mkReservation (resvs : List Reservation) (req : ReservationCreate)
    (tid : Nat) (now : Int) : Reservation :=
  { id := nextId resvs
    customer_name := req.customer_name
    customer_email := req.customer_email
    customer_phone := req.customer_phone
    reservation_time := req.reservation_time
    party_size := req.party_size
    table_id := tid
    status := "confirmed"
    created_at := now
    items := req.items.filter fun p => 0 < p.2 }

/-- `reservation_service.create_reservation` (lines 155-322).

The session runs with `autoflush=False` (`database.py`), so the pending
row is invisible to the session's own queries until `commit`.  `interf`
models the reservation rows committed by other sessions between the
first availability check (which sees `db`) and the final
re-check/commit (which sees `db` extended by `interf`) — the TOCTOU
window the code's second overlap query is meant to close. -/
def create_reservation (db : DB) (interf : List Reservation)
    (req : ReservationCreate) (now : Int) : CreateResult :=
  match req.table_id with
  | some tid =>
    match db.tables.find? (fun t => t.id = tid) with
    | none =>
        { db := db, success := false
          message := "Selected table does not exist."
          reservation := none, suggestions := none }
    | some table =>
        if table.capacity < req.party_size then
          { db := db, success := false
            message := "Selected table cannot accommodate the party size."
            reservation := none, suggestions := none }
        else if req.preferred_view.isSome && ! (some table.view = req.preferred_view) then
          { db := db, success := false
            message := "Selected table does not match the preferred view."
            reservation := none, suggestions := none }
        else if conflict_exists db.reservations tid req.reservation_time then
          { db := db, success := false
            message := "Selected table is not available at that time. Here are some alternatives (including split tables in the same view if possible)."
            reservation := none
            suggestions := some (find_best_table_combination db req.party_size
              req.reservation_time (some table.view)) }
        else
          -- rows committed by other sessions become visible here
          let db2 : DB := { db with reservations := db.reservations ++ interf }
          if conflict_exists db2.reservations tid req.reservation_time then
            -- overlap2 found: rollback, offer alternatives
            { db := db2, success := false
              message := "Selected table was just booked by someone else. Here are some alternatives (including split tables in the same view if possible)."
              reservation := none
              suggestions := some (find_best_table_combination db2 req.party_size
                req.reservation_time (some table.view)) }
          else
            let res := mkReservation db2.reservations req tid now
            { db := { db2 with reservations := db2.reservations ++ [res] }
              success := true
              message := "Reservation confirmed!"
              reservation := some res
              suggestions := none }
  | none =>
    -- no table selected: compute suggestion, auto-book only an exact single
    let suggestion := find_best_table_combination db req.party_size
      req.reservation_time req.preferred_view
    if suggestion.tables.isEmpty then
      { db := db, success := false
        message := "No tables available for the requested time and party size."
        reservation := none, suggestions := some suggestion }
    else if suggestion.is_exact_match && suggestion.tables.length = 1 then
      match suggestion.tables with
      | t :: _ =>
          -- committed without re-running the overlap check
          let db2 : DB := { db with reservations := db.reservations ++ interf }
          let res := mkReservation db2.reservations req t.id now
          { db := { db2 with reservations := db2.reservations ++ [res] }
            success := true
            message := "Reservation confirmed!"
            reservation := some res
            suggestions := some suggestion }
      | [] =>
          { db := db, success := false
            message := "We couldn't find an exact match, but here are some alternatives:"
            reservation := none, suggestions := some suggestion }
    else
      { db := db, success := false
        message := "We couldn't find an exact match, but here are some alternatives:"
        reservation := none, suggestions := some suggestion }

/-- `reservation_service.cancel_reservation` (lines 328-340): flips the
first reservation matching the id *and* status `confirmed` to
`cancelled`; reports `False` when none matches. -/
def cancel_reservation (db : DB) (rid : Nat) : Bool × DB :=
  match db.reservations.find? (fun r => r.id = rid && r.status = "confirmed") with
  | none => (false, db)
  | some _ =>
      (true,
        { db with reservations := db.reservations.map fun r =>
            if r.id = rid && r.status = "confirmed"
              then { r with status := "cancelled" } else r })

/-- `reservation_service.reschedule_reservation` (lines 857-878). -/
def reschedule_reservation (db : DB) (rid : Nat) (new_time : Int) :
    Bool × String × DB :=
  match db.reservations.find? (fun r => r.id = rid) with
  | none => (false, "Reservation not found or not confirmed.", db)
  | some res =>
      if res.status ≠ "confirmed" then
        (false, "Reservation not found or not confirmed.", db)
      else if db.reservations.any (fun r =>
          r.id ≠ res.id && r.table_id = res.table_id &&
            r.status = "confirmed" &&
            new_time - 120 ≤ r.reservation_time &&
            r.reservation_time ≤ new_time + 120) then
        (false, "That time is not available on your current table.", db)
      else
        (true, "",
          { db with reservations := db.reservations.map fun r =>
              if r.id = rid then { r with reservation_time := new_time } else r })

/-! ### Combo/split booking (`reservation_service.create_combo_reservations`) -/

/-- `ComboBookingRequest` payload (required keys of
`create_combo_reservations`). -/
structure ComboPayload where
  customer_name : String
  customer_email : String
  customer_phone : String
  reservation_time : Int
  party_size : Nat
  table_ids : List Nat
  deriving Repr, DecidableEq

/-- Result of a combo booking: committed state plus outcome.  A `false`
`success` models the raised `ValueError` after `db.rollback()`. -/
structure ComboResult where
  db : DB
  success : Bool
  message : String
  deriving Repr, DecidableEq

/-- The allocation loop of `create_combo_reservations` (lines 631-650):
walk tables by descending capacity, allocate `min(capacity, remaining)`
to each.  Returns the `(table_id, allocated)` rows and the remaining
unseated head count. -/
def comboAllocLoop : List RTable → Nat → List (Nat × Nat) →
    List (Nat × Nat) × Nat
  | [], remaining, acc => (acc, remaining)
  | t :: rest, remaining, acc =>
    if remaining = 0 then (acc, remaining)
    else
      let a := min t.capacity remaining
      comboAllocLoop rest (remaining - a) (acc ++ [(t.id, a)])

/-- Build the reservation rows committed by a successful combo booking. -/
def comboRows (resvs : List Reservation) (p : ComboPayload) (now : Int) :
    List (Nat × Nat) → List Reservation
  | [] => []
  | (tid, alloc) :: rest =>
      let r : Reservation :=
        { id := nextId resvs
          customer_name := p.customer_name
          customer_email := p.customer_email
          customer_phone := p.customer_phone
          reservation_time := p.reservation_time
          party_size := alloc
          table_id := tid
          status := "confirmed"
          created_at := now
          items := [] }
      r :: comboRows (resvs ++ [r]) p now rest

/-- `reservation_service.create_combo_reservations` (lines 587-675).
Every raised `ValueError` leaves the database untouched (the writes are
only flushed at `db.commit()`, and the exception path rolls back). -/
def create_combo_reservations (db : DB) (now : Int) (p : ComboPayload) :
    ComboResult :=
  if p.table_ids.isEmpty then
    { db := db, success := false
      message := "table_ids must be a non-empty list" }
  else
    let tables := db.tables.filter fun t => p.table_ids.contains t.id
    if tables.length ≠ p.table_ids.dedup.length then
      { db := db, success := false
        message := "One or more selected tables do not exist" }
    else if tables.any (fun t =>
        conflict_exists db.reservations t.id p.reservation_time) then
      { db := db, success := false
        message := "A selected table is not available at that time" }
    else
      let sorted := sortKeyDesc (fun t => t.capacity) tables
      let alloc := comboAllocLoop sorted p.party_size []
      if 0 < alloc.2 then
        { db := db, success := false
          message := "Selected tables' capacities are insufficient for the party size" }
      else
        { db := { db with
            reservations := db.reservations ++ comboRows db.reservations p now alloc.1 }
          success := true
          message := "Created reservations across tables." }

/-! ### Section-based engine (`app/services/booking_service.py`) -/

/-- Modelled from the spec: the `RestaurantSection` ORM class is
referenced by `booking_service.py` and `init_db.py` but absent from
`src/app/models.py`.  Spec §3 "Section": identifier, name, integer
`priority` (lower = tried first), `canCombineTables`, active flag. -/
structure RestaurantSection where
  id : Nat
  name : String
  priority : Nat
  is_active : Bool
  can_combine_tables : Bool
  deriving Repr, DecidableEq

/-- Modelled from the spec: the section-schema `Table` variant used by
`booking_service.py` (fields `table_number`, `section_id`, `is_active`,
`is_combined`, `combined_with`) is absent from `src/app/models.py`;
spec §3 "Table" describes label, capacity, owning section, active flag
and the `combinedWith` linkage. -/
structure BTable where
  id : Nat
  table_number : String
  capacity : Nat
  section_id : Nat
  is_active : Bool
  is_combined : Bool
  combined_with : Option String
  deriving Repr, DecidableEq

/-- Modelled from the spec: the reservation variant used by
`booking_service.py` — only the fields its cancel path reads (identity,
status, assigned table, creation stamp). -/
structure BReservation where
  id : Nat
  customer_name : String
  party_size : Nat
  table_id : Option Nat
  status : String
  created_at : Int
  deriving Repr, DecidableEq

/-- Database state seen by `BookingService`. -/
structure BDB where
  sections : List RestaurantSection
  btables : List BTable
  breservations : List BReservation
  deriving Repr, DecidableEq

/-- Total capacity of a section-schema table list. -/
def sumCapB (l : List BTable) : Nat :=
  (l.map fun t => t.capacity).sum

/-- The per-section body of
`BookingService.find_best_table_combination` (lines 109-132): first a
single active, uncombined table with `capacity >= party_size` (smallest
first); otherwise, when the section combines tables and the party is at
most 8, the two smallest tables with `capacity * 2 >= party_size`,
accepted when their summed capacity covers the party. -/
def bfindLoop (db : BDB) (party : Nat) :
    List RestaurantSection → Option (List BTable) × String
  | [] => (none, "No available tables")
  | s :: rest =>
    let singles := sortKey (fun t => t.capacity)
      (db.btables.filter fun t =>
        t.section_id = s.id && t.is_active && t.is_combined = false &&
          party ≤ t.capacity)
    match singles with
    | t :: _ => (some [t], s.name)
    | [] =>
        if s.can_combine_tables && party ≤ 8 then
          let pair := (sortKey (fun t => t.capacity)
            (db.btables.filter fun t =>
              t.section_id = s.id && t.is_active && t.is_combined = false &&
                party ≤ t.capacity * 2)).take 2
          if pair.length = 2 && party ≤ sumCapB pair then (some pair, s.name)
          else bfindLoop db party rest
        else bfindLoop db party rest

/-- `BookingService.find_best_table_combination` (lines 94-134):
resolve the candidate sections (preference filter, else all active
sections by ascending priority) and run the per-section search. -/
def bfind (db : BDB) (party : Nat) (pref : Option String) :
    Option (List BTable) × String :=
  let actives := db.sections.filter fun s => s.is_active
  let candidates := match pref with
    | some p => if p ≠ "Any" then actives.filter (fun s => s.name = p) else actives
    | none => actives
  bfindLoop db party (sortKey (fun s => s.priority) candidates)

/-- `BookingService.cancel_reservation` (lines 225-249): refuses only
unknown ids and already-cancelled reservations; clears the
`combined_with` linkage when the reserved table was combined; then
flips the status to `cancelled`. -/
def bcancel (db : BDB) (rid : Nat) : Bool × String × BDB :=
  match db.breservations.find? (fun r => r.id = rid) with
  | none => (false, "Reservation not found.", db)
  | some res =>
      if res.status = "cancelled" then
        (false, "This reservation has already been cancelled.", db)
      else
        let tbl := res.table_id.bind fun tid =>
          db.btables.find? (fun t => t.id = tid)
        let db1 : BDB := match tbl with
          | some t =>
              if t.is_combined then
                let nums := ((t.combined_with.getD "").splitOn ",")
                { db with btables := db.btables.map fun (u : BTable) =>
                    if nums.contains u.table_number
                      then { u with is_combined := false, combined_with := none }
                      else u }
              else db
          | none => db
        let db2 : BDB :=
          { db1 with breservations := db1.breservations.map fun (r : BReservation) =>
              if r.id = rid then { r with status := "cancelled" } else r }
        (true, "Reservation has been cancelled successfully.", db2)

/-- The `party_size` bound of `schemas.ReservationBase`
(`Field(..., gt=0, le=12)`): requests outside `1..12` are rejected by
validation before any allocation code runs. -/
def party_size_ok (n : Nat) : Bool :=
  0 < n && n ≤ 12

/-! ### Helper lemmas about the conflict checker and the base query -/


theorem bookedTableIds_contains_iff (resvs : List Reservation) (tid : Nat)
    (time : Int) :
    (bookedTableIds resvs time).contains tid = true ↔
      conflict_exists resvs tid time = true := by
  simp only [bookedTableIds, conflict_exists, List.elem_iff, List.mem_map,
    List.mem_filter, List.any_eq_true, Bool.and_eq_true, decide_eq_true_eq]
  constructor
  · rintro ⟨r, ⟨hr, hcond⟩, hid⟩
    exact ⟨r, hr, ⟨⟨hid, hcond.1.1⟩, hcond.1.2⟩, hcond.2⟩
  · rintro ⟨r, hr, ⟨⟨hid, hst⟩, hlo⟩, hhi⟩
    exact ⟨r, ⟨hr, ⟨⟨hst, hlo⟩, hhi⟩⟩, hid⟩

theorem mem_availBase (db : DB) (time : Int) (view : Option String)
    (t : RTable) (ht : t ∈ availBase db time view) :
    t ∈ db.tables ∧ t.is_available = true ∧
      conflict_exists db.reservations t.id time = false := by
  have hbase : t ∈ db.tables.filter (fun u => u.is_available &&
      ! (bookedTableIds db.reservations time).contains u.id) := by
    simp only [availBase] at ht
    cases view with
    | none => exact ht
    | some v => exact (List.mem_filter.mp ht).1
  rcases List.mem_filter.mp hbase with ⟨htab, hcond⟩
  simp only [Bool.and_eq_true] at hcond
  obtain ⟨hav, hnb⟩ := hcond
  refine ⟨htab, hav, ?_⟩
  have hcf : (bookedTableIds db.reservations time).contains t.id = false := by
    simpa using hnb
  cases hconf : conflict_exists db.reservations t.id time with
  | false => rfl
  | true =>
      have := (bookedTableIds_contains_iff db.reservations t.id time).mpr hconf
      rw [hcf] at this
      exact Bool.noConfusion this

theorem get_available_tables_subset (db : DB) (party : Nat) (time : Int)
    (view : Option String) (maxCap : Option Nat) (t : RTable)
    (ht : t ∈ (get_available_tables db party time view maxCap).1) :
    t ∈ availBase db time view := by
  simp only [get_available_tables] at ht
  split at ht
  · simp only at ht
    exact (List.mem_filter.mp ((mem_sortKey _ _ _).mp ht)).1
  · split at ht
    · simp only at ht
      exact (List.mem_filter.mp ((mem_sortKeyDesc _ _ _).mp ht)).1
    · simp only at ht
      exact (List.mem_filter.mp ((mem_sortKey _ _ _).mp ht)).1

/-- C1: the concrete 19:30 confirmed reservation of the spec scenario
(19:30 = minute 1170 of the day, 20:00 = minute 1200). -/
def exRes1930 : Reservation :=
  ⟨1, "Alice", "alice@example.com", "+10000000", 1170, 2, 1, "confirmed", 0, []⟩

/-- C1: the availability check reports a table free iff no confirmed
reservation on that table has its requested time inside the inclusive
window `[t - 2h, t + 2h]`; every table returned by the availability
search passes this check; and a table holding a confirmed 19:30
reservation is reported not free for a 20:00 request. -/
theorem c1_conflict_window_iff :
    (∀ (resvs : List Reservation) (tid : Nat) (time : Int),
      is_table_free resvs tid time = true ↔
        ∀ r ∈ resvs, ¬(r.table_id = tid ∧ r.status = "confirmed" ∧
          time - 120 ≤ r.reservation_time ∧ r.reservation_time ≤ time + 120)) ∧
    (∀ (db : DB) (party : Nat) (time : Int) (view : Option String)
      (maxCap : Option Nat) (t : RTable),
      t ∈ (get_available_tables db party time view maxCap).1 →
        is_table_free db.reservations t.id time = true) ∧
    is_table_free [exRes1930] 1 1200 = false := by
  refine ⟨?_, ?_, by decide⟩
  · intro resvs tid time
    simp only [is_table_free, conflict_exists, Bool.not_eq_true',
      List.any_eq_false, Bool.and_eq_true, decide_eq_true_eq]
    constructor
    · intro h r hr hcond
      exact h r hr ⟨⟨⟨hcond.1, hcond.2.1⟩, hcond.2.2.1⟩, hcond.2.2.2⟩
    · intro h r hr hcond
      exact h r hr ⟨hcond.1.1.1, hcond.1.1.2, hcond.1.2, hcond.2⟩
  · intro db party time view maxCap t ht
    have hfree := (mem_availBase db time view t
      (get_available_tables_subset db party time view maxCap t ht)).2.2
    unfold is_table_free
    rw [hfree]
    rfl

/-- C1 witness: `c1_conflict_window_iff` instantiated at concrete
states. -/
theorem c1_conflict_window_iff_witness :
    is_table_free [exRes1930] 2 5000 = true ∧
    is_table_free (DB.mk [⟨2, 2, "w", true⟩] []).reservations
      (RTable.mk 2 2 "w" true).id 1200 = true ∧
    is_table_free [exRes1930] 1 1200 = false :=
  ⟨(c1_conflict_window_iff.1 [exRes1930] 2 5000).mpr (by decide),
   c1_conflict_window_iff.2.1 (DB.mk [⟨2, 2, "w", true⟩] [])
     2 1200 none none ⟨2, 2, "w", true⟩ (by decide),
   c1_conflict_window_iff.2.2⟩

/-! ### C2: the race re-check before persisting -/

/-- C2: a garden table of capacity 4, free at search time. -/
def exC2Table : RTable := ⟨1, 4, "garden", true⟩

/-- C2: state at search time — no reservations. -/
def exC2DB : DB := ⟨[exC2Table], []⟩

/-- C2: a conflicting confirmed reservation committed by another
session between the availability search and the commit. -/
def exC2Interf : Reservation :=
  ⟨7, "Mallory", "m@example.com", "+10000001", 1200, 4, 1, "confirmed", 0, []⟩

/-- C2: an auto-selection booking request (no table id). -/
def exC2Req : ReservationCreate :=
  ⟨"Carol", "c@example.com", "+10000002", 1200, 4, none, none, []⟩

/-- C2: an explicit-table booking request for table 1. -/
def exC2ReqT : ReservationCreate :=
  ⟨"Carol", "c@example.com", "+10000002", 1200, 4, none, some 1, []⟩

/-- C2 counterexample: in the auto-selection path of
`create_reservation` the candidate table became occupied between the
search and the write, yet the reservation is committed anyway (no
re-check runs), leaving two confirmed reservations inside the same
conflict window on table 1 — the claim's universal "re-run ... for
every booking attempt" fails. -/
theorem c2_counterexample :
    (create_reservation exC2DB [exC2Interf] exC2Req 0).success = true ∧
    conflict_exists (exC2DB.reservations ++ [exC2Interf]) 1 1200 = true ∧
    ((create_reservation exC2DB [exC2Interf] exC2Req 0).db.reservations.filter
      (fun r => r.table_id = 1 && r.status = "confirmed" &&
        (1200 : Int) - 120 ≤ r.reservation_time &&
        r.reservation_time ≤ (1200 : Int) + 120)).length = 2 := by
  decide

/-- C2 amended: in the *explicit-table* path the conflict check is
re-run against the latest committed state immediately before
persisting; if the table became occupied in the meantime the attempt
commits nothing of its own (the resulting state is exactly the other
sessions' rows) and alternatives are produced instead of a
confirmation.  (The auto-selection path commits without a re-check, as
the counterexample shows.) -/
theorem c2_amended_recheck (db : DB) (interf : List Reservation)
    (req : ReservationCreate) (now : Int) (tid : Nat) (table : RTable)
    (htid : req.table_id = some tid)
    (hfind : db.tables.find? (fun t => t.id = tid) = some table)
    (hcap : ¬ table.capacity < req.party_size)
    (hview : (req.preferred_view.isSome &&
      ! (some table.view = req.preferred_view)) = false)
    (hfree1 : conflict_exists db.reservations tid req.reservation_time = false)
    (hconf2 : conflict_exists (db.reservations ++ interf) tid
      req.reservation_time = true) :
    (create_reservation db interf req now).success = false ∧
    (create_reservation db interf req now).db.reservations =
      db.reservations ++ interf ∧
    (create_reservation db interf req now).reservation = none ∧
    (create_reservation db interf req now).suggestions =
      some (find_best_table_combination
        { db with reservations := db.reservations ++ interf }
        req.party_size req.reservation_time (some table.view)) := by
  simp only [create_reservation, htid]
  rw [hfind]
  simp only [if_neg hcap, hview, Bool.false_eq_true, if_false, hfree1, hconf2,
    if_true]
  exact ⟨trivial, trivial, trivial, trivial⟩

/-- C2 witness: the amended theorem at a concrete race. -/
theorem c2_amended_recheck_witness :
    (create_reservation exC2DB [exC2Interf] exC2ReqT 0).success = false ∧
    (create_reservation exC2DB [exC2Interf] exC2ReqT 0).db.reservations =
      exC2DB.reservations ++ [exC2Interf] ∧
    (create_reservation exC2DB [exC2Interf] exC2ReqT 0).reservation = none ∧
    (create_reservation exC2DB [exC2Interf] exC2ReqT 0).suggestions =
      some (find_best_table_combination
        { exC2DB with reservations := exC2DB.reservations ++ [exC2Interf] }
        exC2ReqT.party_size exC2ReqT.reservation_time (some exC2Table.view)) :=
  c2_amended_recheck exC2DB [exC2Interf] exC2ReqT 0 1 exC2Table rfl
    (by decide) (by decide) (by decide) (by decide) (by decide)

/-! ### C3: no undersized allocations -/

theorem get_available_exact_cap (db : DB) (party : Nat) (time : Int)
    (view : Option String) (maxCap : Option Nat) (ts : List RTable)
    (h : get_available_tables db party time view maxCap = (ts, true)) :
    ∀ t ∈ ts, party ≤ t.capacity := by
  intro t ht
  simp only [get_available_tables] at h
  split at h
  · cases h
    rcases List.mem_filter.mp ((mem_sortKey _ _ _).mp ht) with ⟨-, hcond⟩
    simp only [Bool.and_eq_true, decide_eq_true_eq] at hcond
    exact hcond.1
  · split at h
    · have := congrArg Prod.snd h
      simp at this
    · have := congrArg Prod.snd h
      simp at this

theorem find_best_tables_cases (db : DB) (party : Nat) (time : Int)
    (view : Option String) :
    (find_best_table_combination db party time view).tables = [] ∨
    (∃ t rest, get_available_tables db party time view none = (t :: rest, true) ∧
      (find_best_table_combination db party time view).tables = [t]) ∨
    ((find_best_table_combination db party time view).tables ≠ [] ∧
      party ≤ sumCap (find_best_table_combination db party time view).tables) := by
  unfold find_best_table_combination
  rcases hga : get_available_tables db party time view none with ⟨ts, flag⟩
  cases flag with
  | true =>
      cases ts with
      | nil => left; simp [fallbackSuggestion]
      | cons t0 rest =>
          right; left
          exact ⟨t0, rest, rfl, rfl⟩
  | false =>
      simp only
      split
      · left; simp [fallbackSuggestion]
      · split
        · rename_i hguard
          simp only [Bool.and_eq_true, Bool.not_eq_true', List.isEmpty_eq_false,
            decide_eq_true_eq] at hguard
          right; right
          exact ⟨by simpa using hguard.1, hguard.2⟩
        · left; simp [fallbackSuggestion]

theorem bfindLoop_no_undersized (db : BDB) (party : Nat)
    (secs : List RestaurantSection) (tables : List BTable) (name : String)
    (h : bfindLoop db party secs = (some tables, name)) (t : BTable)
    (ht : t ∈ tables) :
    party ≤ t.capacity ∨ (2 ≤ tables.length ∧ party ≤ sumCapB tables) := by
  induction secs with
  | nil => simp [bfindLoop] at h
  | cons s rest ih =>
      simp only [bfindLoop] at h
      split at h
      · rename_i u us hu
        -- single-table hit: tables = [u]
        cases h
        left
        have hmem : u ∈ u :: us := by simp
        rw [← hu] at hmem
        rcases List.mem_filter.mp ((mem_sortKey _ _ _).mp hmem) with ⟨-, hcond⟩
        simp only [Bool.and_eq_true, decide_eq_true_eq] at hcond
        rcases List.mem_singleton.mp ht with rfl
        exact hcond.2
      · split at h
        · split at h
          · rename_i hguard
            cases h
            simp only [Bool.and_eq_true, decide_eq_true_eq] at hguard
            right
            exact ⟨by omega, hguard.2⟩
          · exact ih h
        · exact ih h

/-- C3: neither table finder ever returns a table smaller than the
party except inside a multi-table allocation whose summed capacity
covers the party — for every state, party size, and view/section
preference. -/
theorem c3_no_undersized :
    (∀ (db : DB) (party : Nat) (time : Int) (view : Option String) (t : RTable),
      t ∈ (find_best_table_combination db party time view).tables →
        party ≤ t.capacity ∨
          (2 ≤ (find_best_table_combination db party time view).tables.length ∧
            party ≤ sumCap (find_best_table_combination db party time view).tables)) ∧
    (∀ (db : BDB) (party : Nat) (pref : Option String)
      (tables : List BTable) (name : String) (t : BTable),
      bfind db party pref = (some tables, name) → t ∈ tables →
        party ≤ t.capacity ∨ (2 ≤ tables.length ∧ party ≤ sumCapB tables)) := by
  constructor
  · intro db party time view t ht
    rcases find_best_tables_cases db party time view with hemp | ⟨t0, rest, hga, htab⟩ | ⟨hne, hsum⟩
    · rw [hemp] at ht; cases ht
    · rw [htab] at ht
      rcases List.mem_singleton.mp ht with rfl
      exact Or.inl (get_available_exact_cap db party time view none (t :: rest)
        hga t (by simp))
    · rcases htab : (find_best_table_combination db party time view).tables with
        _ | ⟨x, xs⟩
      · exact absurd htab hne
      · cases xs with
        | nil =>
            rw [htab] at ht hsum
            rcases List.mem_singleton.mp ht with rfl
            left
            simpa [sumCap] using hsum
        | cons y ys =>
            right
            rw [htab] at hsum
            exact ⟨by simp only [List.length_cons]; omega, hsum⟩
  · intro db party pref tables name t h ht
    exact bfindLoop_no_undersized db party _ tables name h t ht

/-- C3 witness: the two finders at concrete states — a combined
allocation of two 2-seaters for a party of 4, and a single-table hit. -/
theorem c3_no_undersized_witness :
    (4 ≤ (RTable.mk 2 2 "w" true).capacity ∨
      (2 ≤ (find_best_table_combination
          (DB.mk [⟨1, 10, "w", true⟩, ⟨2, 2, "w", true⟩, ⟨3, 2, "w", true⟩] [])
          4 1200 none).tables.length ∧
        4 ≤ sumCap (find_best_table_combination
          (DB.mk [⟨1, 10, "w", true⟩, ⟨2, 2, "w", true⟩, ⟨3, 2, "w", true⟩] [])
          4 1200 none).tables)) ∧
    (2 ≤ (BTable.mk 12 "12" 4 1 true false none).capacity ∨
      (2 ≤ [BTable.mk 12 "12" 4 1 true false none].length ∧
        2 ≤ sumCapB [BTable.mk 12 "12" 4 1 true false none])) :=
  ⟨c3_no_undersized.1
      (DB.mk [⟨1, 10, "w", true⟩, ⟨2, 2, "w", true⟩, ⟨3, 2, "w", true⟩] [])
      4 1200 none ⟨2, 2, "w", true⟩ (by decide),
   c3_no_undersized.2
      (BDB.mk [⟨1, "Lake View", 1, true, true⟩] [⟨12, "12", 4, 1, true, false, none⟩] [])
      2 none [⟨12, "12", 4, 1, true, false, none⟩] "Lake View"
      ⟨12, "12", 4, 1, true, false, none⟩ (by decide) (by decide)⟩

/-! ### C4: capacity preference order -/

/-- C4: three free window tables — one 10-seater and two 2-seaters. -/
def exDB4 : DB := ⟨[⟨1, 10, "w", true⟩, ⟨2, 2, "w", true⟩, ⟨3, 2, "w", true⟩], []⟩

/-- C4 counterexample: for a party of 4 a free *larger single* table
(capacity 10) is available, yet the finder returns a two-table
combination instead — the claimed "larger single table before a
combined multi-table allocation" ordering does not hold.  (The code
only ever books singles of capacity at most twice the party size.) -/
theorem c4_counterexample :
    (RTable.mk 1 10 "w" true) ∈ availBase exDB4 1200 none ∧
    4 ≤ (RTable.mk 1 10 "w" true).capacity ∧
    (find_best_table_combination exDB4 4 1200 none).is_exact_match = false ∧
    (find_best_table_combination exDB4 4 1200 none).tables.length = 2 ∧
    (RTable.mk 1 10 "w" true) ∉ (find_best_table_combination exDB4 4 1200 none).tables := by
  decide

/-- C4 amended: the preference order actually implemented: a single
free table is chosen iff its capacity lies in the inclusive band
`[partySize, 2·partySize]`, and then the smallest such table is chosen
(an exact-capacity table before any larger one); combinations are only
tried when no single table in that band exists; singles above twice the
party size are never allocated. -/
theorem c4_amended_band_preference (db : DB) (party : Nat) (time : Int)
    (view : Option String) (t : RTable)
    (ht : t ∈ availBase db time view)
    (h1 : party ≤ t.capacity) (h2 : t.capacity ≤ party * 2) :
    ∃ u, (find_best_table_combination db party time view).tables = [u] ∧
      (find_best_table_combination db party time view).is_exact_match = true ∧
      u ∈ availBase db time view ∧ party ≤ u.capacity ∧
      u.capacity ≤ party * 2 ∧
      ∀ v ∈ availBase db time view, party ≤ v.capacity →
        v.capacity ≤ party * 2 → u.capacity ≤ v.capacity := by
  have hmemf : t ∈ (availBase db time view).filter
      (fun v => party ≤ v.capacity && v.capacity ≤ party * 2) :=
    List.mem_filter.mpr ⟨ht, by simp [h1, h2]⟩
  rcases hsk : sortKey (fun v => v.capacity) ((availBase db time view).filter
      (fun v => party ≤ v.capacity && v.capacity ≤ party * 2)) with _ | ⟨u, rest⟩
  · exfalso
    have hmem := (mem_sortKey (fun v => v.capacity) t _).mpr hmemf
    rw [hsk] at hmem
    cases hmem
  · have hga : get_available_tables db party time view none = (u :: rest, true) := by
      simp only [get_available_tables]
      rw [hsk]
      simp
    have humem : u ∈ (availBase db time view).filter
        (fun v => party ≤ v.capacity && v.capacity ≤ party * 2) := by
      have : u ∈ sortKey (fun v => v.capacity) ((availBase db time view).filter
          (fun v => party ≤ v.capacity && v.capacity ≤ party * 2)) := by
        rw [hsk]; simp
      exact (mem_sortKey _ _ _).mp this
    rcases List.mem_filter.mp humem with ⟨huavail, hucond⟩
    simp only [Bool.and_eq_true, decide_eq_true_eq] at hucond
    refine ⟨u, ?_, ?_, huavail, hucond.1, hucond.2, ?_⟩
    · unfold find_best_table_combination
      rw [hga]
    · unfold find_best_table_combination
      rw [hga]
    · intro v hv hv1 hv2
      exact sortKey_head_min (fun w => w.capacity) _ u rest hsk v
        (List.mem_filter.mpr ⟨hv, by simp [hv1, hv2]⟩)

/-- C4 witness: the amended theorem at a single free 4-seater for a
party of 4. -/
theorem c4_amended_band_preference_witness :
    ∃ u, (find_best_table_combination (DB.mk [⟨1, 4, "garden", true⟩] [])
        4 1200 none).tables = [u] ∧
      (find_best_table_combination (DB.mk [⟨1, 4, "garden", true⟩] [])
        4 1200 none).is_exact_match = true ∧
      u ∈ availBase (DB.mk [⟨1, 4, "garden", true⟩] []) 1200 none ∧
      4 ≤ u.capacity ∧ u.capacity ≤ 4 * 2 ∧
      ∀ v ∈ availBase (DB.mk [⟨1, 4, "garden", true⟩] []) 1200 none,
        4 ≤ v.capacity → v.capacity ≤ 4 * 2 → u.capacity ≤ v.capacity :=
  c4_amended_band_preference (DB.mk [⟨1, 4, "garden", true⟩] []) 4 1200 none
    ⟨1, 4, "garden", true⟩ (by decide) (by decide) (by decide)

/-! ### C5: combo booking is all-or-nothing -/

theorem sumCap_cons (x : RTable) (l : List RTable) :
    sumCap (x :: l) = x.capacity + sumCap l := by
  simp [sumCap]

theorem sumCap_insKeyDesc (k : RTable → Nat) (a : RTable) (l : List RTable) :
    sumCap (insKeyDesc k a l) = a.capacity + sumCap l := by
  induction l with
  | nil => simp [insKeyDesc, sumCap]
  | cons b bs ih =>
      simp only [insKeyDesc]
      split
      · simp [sumCap_cons]
      · rw [sumCap_cons, ih, sumCap_cons]
        omega

theorem sumCap_sortKeyDesc (k : RTable → Nat) (l : List RTable) :
    sumCap (sortKeyDesc k l) = sumCap l := by
  induction l with
  | nil => rfl
  | cons a as ih =>
      simp only [sortKeyDesc]
      rw [sumCap_insKeyDesc, ih, sumCap_cons]

theorem comboAllocLoop_remaining (l : List RTable) (r : Nat)
    (acc : List (Nat × Nat)) : (comboAllocLoop l r acc).2 = r - sumCap l := by
  induction l generalizing r acc with
  | nil => simp [comboAllocLoop, sumCap]
  | cons t rest ih =>
      simp only [comboAllocLoop]
      split
      · rename_i hr
        rw [sumCap_cons]
        omega
      · rw [ih, sumCap_cons]
        have : min t.capacity r ≤ r := Nat.min_le_right _ _
        omega

theorem missing_id_filter_length (tables : List RTable) (ids : List Nat)
    (hnodup : (tables.map (fun t => t.id)).Nodup) (i : Nat) (hi : i ∈ ids)
    (hmiss : ∀ t ∈ tables, t.id ≠ i) :
    (tables.filter (fun t => ids.contains t.id)).length < ids.dedup.length := by
  have hlen : (tables.filter (fun t => ids.contains t.id)).length =
      ((tables.filter (fun t => ids.contains t.id)).map (fun t => t.id)).length := by
    simp
  have hnd : ((tables.filter (fun t => ids.contains t.id)).map
      (fun t => t.id)).Nodup :=
    hnodup.sublist ((List.filter_sublist tables).map (fun t => t.id))
  have hsub : ((tables.filter (fun t => ids.contains t.id)).map
      (fun t => t.id)) ⊆ ids.dedup.erase i := by
    intro x hx
    rcases List.mem_map.mp hx with ⟨t, htmem, rfl⟩
    rcases List.mem_filter.mp htmem with ⟨htt, hcont⟩
    have hxid : t.id ∈ ids := by simpa [List.elem_iff] using hcont
    exact (List.mem_erase_of_ne (hmiss t htt)).mpr (List.mem_dedup.mpr hxid)
  have hle := (hnd.subperm hsub).length_le
  have hi2 : i ∈ ids.dedup := List.mem_dedup.mpr hi
  have herase := List.length_erase_of_mem hi2
  have hpos := List.length_pos_of_mem hi2
  omega

/-- C5: combo booking is all-or-nothing — whenever a selected table id
does not exist, or a selected table has a confirmed conflicting
reservation in the ±2h window, or the summed capacity of the selected
tables is below the party size, the operation fails and the database is
unchanged (no partial writes). -/
theorem c5_combo_all_or_nothing (db : DB) (now : Int) (p : ComboPayload)
    (hnodup : (db.tables.map (fun t => t.id)).Nodup)
    (hfail :
      (∃ i ∈ p.table_ids, ∀ t ∈ db.tables, t.id ≠ i) ∨
      (∃ t ∈ db.tables, t.id ∈ p.table_ids ∧
        conflict_exists db.reservations t.id p.reservation_time = true) ∨
      sumCap (db.tables.filter fun t => p.table_ids.contains t.id) <
        p.party_size) :
    (create_combo_reservations db now p).success = false ∧
    (create_combo_reservations db now p).db = db := by
  unfold create_combo_reservations
  split
  · exact ⟨rfl, rfl⟩
  · dsimp only
    split
    · exact ⟨rfl, rfl⟩
    · rename_i hlen
      split
      · exact ⟨rfl, rfl⟩
      · rename_i hconf
        split
        · exact ⟨rfl, rfl⟩
        · rename_i hrem
          exfalso
          rcases hfail with ⟨i, hi, hmiss⟩ | ⟨t, htm, hidin, hc⟩ | hsum
          · exact hlen (Nat.ne_of_lt
              (missing_id_filter_length db.tables p.table_ids hnodup i hi hmiss))
          · apply hconf
            refine List.any_eq_true.mpr ⟨t, List.mem_filter.mpr ⟨htm, ?_⟩, hc⟩
            simpa [List.elem_iff] using hidin
          · apply hrem
            rw [comboAllocLoop_remaining, sumCap_sortKeyDesc]
            omega

/-- C5 witness: a combo request whose second table has a conflicting
confirmed reservation aborts with the database unchanged. -/
theorem c5_combo_all_or_nothing_witness :
    (create_combo_reservations
      (DB.mk [⟨1, 10, "w", true⟩, ⟨2, 2, "w", true⟩]
        [⟨1, "Bob", "b@example.com", "+10000003", 1200, 2, 2, "confirmed", 0, []⟩])
      0 ⟨"N", "e@example.com", "+10000004", 1200, 12, [1, 2]⟩).success = false ∧
    (create_combo_reservations
      (DB.mk [⟨1, 10, "w", true⟩, ⟨2, 2, "w", true⟩]
        [⟨1, "Bob", "b@example.com", "+10000003", 1200, 2, 2, "confirmed", 0, []⟩])
      0 ⟨"N", "e@example.com", "+10000004", 1200, 12, [1, 2]⟩).db =
      DB.mk [⟨1, 10, "w", true⟩, ⟨2, 2, "w", true⟩]
        [⟨1, "Bob", "b@example.com", "+10000003", 1200, 2, 2, "confirmed", 0, []⟩] :=
  c5_combo_all_or_nothing
    (DB.mk [⟨1, 10, "w", true⟩, ⟨2, 2, "w", true⟩]
      [⟨1, "Bob", "b@example.com", "+10000003", 1200, 2, 2, "confirmed", 0, []⟩])
    0 ⟨"N", "e@example.com", "+10000004", 1200, 12, [1, 2]⟩
    (by decide) (by decide)

/-! ### C6: reschedule is atomic on the same table -/

/-- C6: the conflict test `reschedule_reservation` runs for the new
time on the reservation's own table (other reservations only). -/
def reschedule_conflict (db : DB) (res : Reservation) (new_time : Int) : Bool :=
  db.reservations.any fun r =>
    r.id ≠ res.id && r.table_id = res.table_id && r.status = "confirmed" &&
      new_time - 120 ≤ r.reservation_time && r.reservation_time ≤ new_time + 120

/-- C6: rescheduling a confirmed reservation is atomic: when another
confirmed reservation on the same table lies inside the ±2h window of
the new time, the call returns a failure reason and the database — in
particular the reservation's requested time, status and identity — is
unchanged; otherwise only the reservation's `reservation_time` is
replaced (identifier, status, items and every other row untouched). -/
theorem c6_reschedule_atomic (db : DB) (rid : Nat) (new_time : Int)
    (res : Reservation)
    (hfind : db.reservations.find? (fun r => r.id = rid) = some res)
    (hconf : res.status = "confirmed") :
    (reschedule_conflict db res new_time = true →
      reschedule_reservation db rid new_time =
        (false, "That time is not available on your current table.", db)) ∧
    (reschedule_conflict db res new_time = false →
      reschedule_reservation db rid new_time =
        (true, "",
          { db with reservations := db.reservations.map fun r =>
              if r.id = rid then { r with reservation_time := new_time }
              else r })) := by
  constructor
  · intro hany
    simp only [reschedule_reservation, hfind]
    rw [if_neg (by simp [hconf])]
    simp only [reschedule_conflict] at hany
    rw [if_pos hany]
  · intro hnone
    simp only [reschedule_reservation, hfind]
    rw [if_neg (by simp [hconf])]
    simp only [reschedule_conflict] at hnone
    rw [if_neg (by rw [hnone]; decide)]

/-- C6: two confirmed reservations on table 1 at minutes 1200 and
1500. -/
def exDB6 : DB :=
  ⟨[⟨1, 10, "w", true⟩],
   [⟨1, "Ann", "a@example.com", "+10000005", 1200, 2, 1, "confirmed", 0, [(5, 2)]⟩,
    ⟨2, "Dan", "d@example.com", "+10000006", 1500, 2, 1, "confirmed", 0, []⟩]⟩

/-- C6 witness: rescheduling reservation 1 to 1450 conflicts with
reservation 2 and leaves the state unchanged; rescheduling to 960
succeeds and rewrites only the requested time. -/
theorem c6_reschedule_atomic_witness :
    (reschedule_reservation exDB6 1 1450 =
      (false, "That time is not available on your current table.", exDB6)) ∧
    (reschedule_reservation exDB6 1 960 =
      (true, "",
        { exDB6 with reservations := exDB6.reservations.map fun r =>
            if r.id = 1 then { r with reservation_time := 960 } else r })) :=
  ⟨(c6_reschedule_atomic exDB6 1 1450
      ⟨1, "Ann", "a@example.com", "+10000005", 1200, 2, 1, "confirmed", 0, [(5, 2)]⟩
      (by decide) (by decide)).1 (by decide),
   (c6_reschedule_atomic exDB6 1 960
      ⟨1, "Ann", "a@example.com", "+10000005", 1200, 2, 1, "confirmed", 0, [(5, 2)]⟩
      (by decide) (by decide)).2 (by decide)⟩

/-! ### C7: cancellation semantics -/

/-- C7: a reservation with status `completed` (a non-confirmed,
non-cancelled status from `models.py`'s status comment). -/
def exBRes7 : BReservation := ⟨1, "Bob", 2, none, "completed", 5⟩

/-- C7: booking-service state holding only that reservation. -/
def exBDB7 : BDB := ⟨[], [], [exBRes7]⟩

/-- C7 counterexample: `BookingService.cancel_reservation` happily
cancels a reservation that is *not* confirmed (status `completed`) and
reports success, mutating the status — the claim's "otherwise not
confirmed → negative result, status unchanged" fails on this
implementation. -/
theorem c7_counterexample :
    (exBDB7.breservations.map fun r => r.status) = ["completed"] ∧
    (bcancel exBDB7 1).1 = true ∧
    ((bcancel exBDB7 1).2.2.breservations.map fun r => r.status) = ["cancelled"] := by
  decide

/-- C7 amended: `reservation_service.cancel_reservation` implements
the claim in full — it flips a confirmed reservation to `cancelled`
with a positive result and returns `False` leaving the state (statuses
and `created_at` included) untouched whenever no reservation carries
both the id and status `confirmed` (unknown id, already cancelled, or
any other non-confirmed status).  `BookingService.cancel_reservation`
refuses only unknown ids and already-cancelled reservations (state
unchanged in both cases, so cancelling twice is a reported no-op); any
other status is cancelled with a success report, as the counterexample
shows. -/
theorem c7_amended_cancel :
    (∀ (db : DB) (rid : Nat),
      db.reservations.find? (fun r => r.id = rid && r.status = "confirmed") =
        none →
      cancel_reservation db rid = (false, db)) ∧
    (∀ (db : DB) (rid : Nat) (res : Reservation),
      db.reservations.find? (fun r => r.id = rid && r.status = "confirmed") =
        some res →
      cancel_reservation db rid =
        (true,
          { db with reservations := db.reservations.map fun r =>
              if r.id = rid && r.status = "confirmed"
                then { r with status := "cancelled" } else r })) ∧
    (∀ (db : BDB) (rid : Nat),
      db.breservations.find? (fun r => r.id = rid) = none →
      bcancel db rid = (false, "Reservation not found.", db)) ∧
    (∀ (db : BDB) (rid : Nat) (res : BReservation),
      db.breservations.find? (fun r => r.id = rid) = some res →
      res.status = "cancelled" →
      bcancel db rid =
        (false, "This reservation has already been cancelled.", db)) := by
  refine ⟨?_, ?_, ?_, ?_⟩
  · intro db rid hfind
    simp only [cancel_reservation, hfind]
  · intro db rid res hfind
    simp only [cancel_reservation, hfind]
  · intro db rid hfind
    simp only [bcancel, hfind]
  · intro db rid res hfind hst
    simp only [bcancel, hfind]
    rw [if_pos hst]

/-- C7 witness: the four cancellation facts at concrete states. -/
theorem c7_amended_cancel_witness :
    cancel_reservation exDB6 7 = (false, exDB6) ∧
    cancel_reservation exDB6 1 =
      (true,
        { exDB6 with reservations := exDB6.reservations.map fun r =>
            if r.id = 1 && r.status = "confirmed"
              then { r with status := "cancelled" } else r }) ∧
    bcancel exBDB7 9 = (false, "Reservation not found.", exBDB7) ∧
    bcancel (BDB.mk [] [] [⟨1, "Bob", 2, none, "cancelled", 5⟩]) 1 =
      (false, "This reservation has already been cancelled.",
        BDB.mk [] [] [⟨1, "Bob", 2, none, "cancelled", 5⟩]) :=
  ⟨c7_amended_cancel.1 exDB6 7 (by decide),
   c7_amended_cancel.2.1 exDB6 1
     ⟨1, "Ann", "a@example.com", "+10000005", 1200, 2, 1, "confirmed", 0, [(5, 2)]⟩
     (by decide),
   c7_amended_cancel.2.2.1 exBDB7 9 (by decide),
   c7_amended_cancel.2.2.2 (BDB.mk [] [] [⟨1, "Bob", 2, none, "cancelled", 5⟩]) 1
     ⟨1, "Bob", 2, none, "cancelled", 5⟩ (by decide) (by decide)⟩

/-! ### C8/C9: section priority routing -/

/-- When `s1` is the active section of strictly least priority and owns
a free (active, uncombined) table of sufficient capacity, the
no-preference search answers from `s1`, with the smallest sufficient
table. -/
theorem bfind_min_priority_section (db : BDB) (party : Nat)
    (s1 : RestaurantSection) (t1 : BTable)
    (hs1 : s1 ∈ db.sections) (hs1a : s1.is_active = true)
    (hmin : ∀ s ∈ db.sections, s.is_active = true → s ≠ s1 →
      s1.priority < s.priority)
    (ht1 : t1 ∈ db.btables) (ht1s : t1.section_id = s1.id)
    (ht1a : t1.is_active = true) (ht1c : t1.is_combined = false)
    (ht1cap : party ≤ t1.capacity) :
    ∃ u, bfind db party none = (some [u], s1.name) ∧
      u.section_id = s1.id ∧ party ≤ u.capacity ∧ u.capacity ≤ t1.capacity := by
  have hs1mem : s1 ∈ db.sections.filter (fun s => s.is_active) :=
    List.mem_filter.mpr ⟨hs1, by simp [hs1a]⟩
  rcases hsort : sortKey (fun s => s.priority)
      (db.sections.filter (fun s => s.is_active)) with _ | ⟨h, rest⟩
  · exfalso
    have := (mem_sortKey (fun s => s.priority) s1 _).mpr hs1mem
    rw [hsort] at this
    cases this
  · have hh : h = s1 := by
      by_contra hne
      have hhm : h ∈ db.sections.filter (fun s => s.is_active) := by
        have : h ∈ sortKey (fun s => s.priority)
            (db.sections.filter (fun s => s.is_active)) := by
          rw [hsort]; simp
        exact (mem_sortKey _ _ _).mp this
      rcases List.mem_filter.mp hhm with ⟨hhs, hha⟩
      have h1 := hmin h hhs (by simpa using hha) hne
      have h2 : h.priority ≤ s1.priority :=
        sortKey_head_min (fun s => s.priority) _ h rest hsort s1 hs1mem
      omega
    subst hh
    have hfmem : t1 ∈ db.btables.filter (fun t =>
        t.section_id = h.id && t.is_active && t.is_combined = false &&
          party ≤ t.capacity) :=
      List.mem_filter.mpr ⟨ht1, by simp [ht1s, ht1a, ht1c, ht1cap]⟩
    rcases hsing : sortKey (fun t => t.capacity) (db.btables.filter (fun t =>
        t.section_id = h.id && t.is_active && t.is_combined = false &&
          party ≤ t.capacity)) with _ | ⟨u, us⟩
    · exfalso
      have := (mem_sortKey (fun t => t.capacity) t1 _).mpr hfmem
      rw [hsing] at this
      cases this
    · have humem : u ∈ db.btables.filter (fun t =>
          t.section_id = h.id && t.is_active && t.is_combined = false &&
            party ≤ t.capacity) := by
        have : u ∈ sortKey (fun t => t.capacity) (db.btables.filter (fun t =>
            t.section_id = h.id && t.is_active && t.is_combined = false &&
              party ≤ t.capacity)) := by
          rw [hsing]; simp
        exact (mem_sortKey _ _ _).mp this
      rcases List.mem_filter.mp humem with ⟨-, hcond⟩
      simp only [Bool.and_eq_true, decide_eq_true_eq] at hcond
      refine ⟨u, ?_, hcond.1.1.1, hcond.2, ?_⟩
      · simp only [bfind]
        rw [hsort]
        simp only [bfindLoop]
        rw [hsing]
      · exact sortKey_head_min (fun t => t.capacity) _ u us hsing t1 hfmem

/-- C8: two active sections each holding a free exact-capacity table. -/
def exBDB8 : BDB :=
  ⟨[⟨2, "Garden View", 2, true, true⟩, ⟨1, "Lake View", 1, true, true⟩],
   [⟨18, "18", 4, 2, true, false, none⟩, ⟨12, "12", 4, 1, true, false, none⟩],
   []⟩

/-- C8: when two active sections with priorities `p1 < p2` each own a
free table of exactly the requested capacity (`s1` being the strictly
highest-priority active section), the no-preference search returns the
table of the `p1` section — sections are tried in ascending priority
order, and the returned table has exactly the requested capacity. -/
theorem c8_section_priority (db : BDB) (party : Nat)
    (s1 s2 : RestaurantSection) (t1 t2 : BTable)
    (hs1 : s1 ∈ db.sections) (hs1a : s1.is_active = true)
    (hs2 : s2 ∈ db.sections) (hs2a : s2.is_active = true)
    (hp : s1.priority < s2.priority)
    (hmin : ∀ s ∈ db.sections, s.is_active = true → s ≠ s1 →
      s1.priority < s.priority)
    (ht1 : t1 ∈ db.btables) (ht1s : t1.section_id = s1.id)
    (ht1a : t1.is_active = true) (ht1c : t1.is_combined = false)
    (ht1cap : t1.capacity = party)
    (ht2 : t2 ∈ db.btables) (ht2s : t2.section_id = s2.id)
    (ht2a : t2.is_active = true) (ht2c : t2.is_combined = false)
    (ht2cap : t2.capacity = party) :
    ∃ u, bfind db party none = (some [u], s1.name) ∧
      u.section_id = s1.id ∧ u.capacity = party := by
  rcases bfind_min_priority_section db party s1 t1 hs1 hs1a hmin ht1 ht1s ht1a
    ht1c (by omega) with ⟨u, hfind, husec, hucap1, hucap2⟩
  exact ⟨u, hfind, husec, by omega⟩

/-- C8 witness: Lake View (priority 1) and Garden View (priority 2)
each hold a free 4-seater; the search seats the party in Lake View. -/
theorem c8_section_priority_witness :
    ∃ u, bfind exBDB8 4 none = (some [u], "Lake View") ∧
      u.section_id = 1 ∧ u.capacity = 4 :=
  c8_section_priority exBDB8 4
    ⟨1, "Lake View", 1, true, true⟩ ⟨2, "Garden View", 2, true, true⟩
    ⟨12, "12", 4, 1, true, false, none⟩ ⟨18, "18", 4, 2, true, false, none⟩
    (by decide) (by decide) (by decide) (by decide) (by decide)
    (by decide) (by decide) (by decide) (by decide) (by decide) (by decide)
    (by decide) (by decide) (by decide) (by decide) (by decide)

/-- C9: Lake View (priority 1) with a free 25-seater, Private Area
(priority 4) with the dedicated 30-seater. -/
def exBDB9 : BDB :=
  ⟨[⟨1, "Lake View", 1, true, true⟩, ⟨4, "Private Area", 4, true, false⟩],
   [⟨10, "10", 25, 1, true, false, none⟩, ⟨22, "22", 30, 4, true, false, none⟩],
   []⟩

/-- C9 counterexample: no large-party special case exists.  For a
party of 20 (at or above the claimed threshold) the search still walks
sections in ascending priority and seats the party at Lake View's
25-seater instead of routing first to the Private Area table; moreover
the request schema rejects any party size above 12 outright. -/
theorem c9_counterexample :
    party_size_ok 20 = false ∧
    bfind exBDB9 20 none =
      (some [⟨10, "10", 25, 1, true, false, none⟩], "Lake View") ∧
    (BTable.mk 10 "10" 25 1 true false none).section_id ≠
      (RestaurantSection.mk 4 "Private Area" 4 true false).id := by
  decide

/-- C9 amended: the code has no large-party routing: for every party
size at or above 20 the schema-level validation already rejects the
request, and the section search, when it runs, follows the ordinary
ascending-priority order — the strictly highest-priority active section
holding a big-enough table wins, private section or not. -/
theorem c9_amended_no_large_party_special (db : BDB) (party : Nat)
    (hlarge : 20 ≤ party)
    (s1 : RestaurantSection) (t1 : BTable)
    (hs1 : s1 ∈ db.sections) (hs1a : s1.is_active = true)
    (hmin : ∀ s ∈ db.sections, s.is_active = true → s ≠ s1 →
      s1.priority < s.priority)
    (ht1 : t1 ∈ db.btables) (ht1s : t1.section_id = s1.id)
    (ht1a : t1.is_active = true) (ht1c : t1.is_combined = false)
    (ht1cap : party ≤ t1.capacity) :
    party_size_ok party = false ∧
    ∃ u, bfind db party none = (some [u], s1.name) ∧ u.section_id = s1.id := by
  constructor
  · have h12 : ¬ party ≤ 12 := by omega
    simp [party_size_ok, h12]
  · rcases bfind_min_priority_section db party s1 t1 hs1 hs1a hmin ht1 ht1s
      ht1a ht1c ht1cap with ⟨u, hfind, husec, -, -⟩
    exact ⟨u, hfind, husec⟩

/-- C9 witness: the amended theorem at the Lake/Private state with a
party of 20. -/
theorem c9_amended_no_large_party_special_witness :
    party_size_ok 20 = false ∧
    ∃ u, bfind exBDB9 20 none = (some [u], "Lake View") ∧ u.section_id = 1 :=
  c9_amended_no_large_party_special exBDB9 20 (by decide)
    ⟨1, "Lake View", 1, true, true⟩ ⟨10, "10", 25, 1, true, false, none⟩
    (by decide) (by decide) (by decide) (by decide) (by decide) (by decide)
    (by decide) (by decide)

/-! ### C10: auto-booking only on an exact single-table match -/

/-- C10: when the request carries no table id, `create_reservation`
commits a confirmed reservation exactly when the computed suggestion is
an exact match consisting of one table; any non-exact or multi-table
suggestion yields `success = False` with the suggestion attached and
leaves the database unchanged. -/
theorem c10_auto_book_exact_only (db : DB) (req : ReservationCreate)
    (now : Int) (htid : req.table_id = none) :
    (¬((find_best_table_combination db req.party_size req.reservation_time
          req.preferred_view).is_exact_match = true ∧
        (find_best_table_combination db req.party_size req.reservation_time
          req.preferred_view).tables.length = 1) →
      (create_reservation db [] req now).success = false ∧
      (create_reservation db [] req now).db = db ∧
      (create_reservation db [] req now).suggestions =
        some (find_best_table_combination db req.party_size
          req.reservation_time req.preferred_view)) ∧
    ((find_best_table_combination db req.party_size req.reservation_time
          req.preferred_view).is_exact_match = true ∧
      (find_best_table_combination db req.party_size req.reservation_time
          req.preferred_view).tables.length = 1 →
      (create_reservation db [] req now).success = true ∧
      ∃ res, (create_reservation db [] req now).reservation = some res ∧
        res.status = "confirmed" ∧
        (create_reservation db [] req now).db.reservations =
          db.reservations ++ [res]) := by
  constructor
  · intro hne
    simp only [create_reservation, htid]
    by_cases hemp : (find_best_table_combination db req.party_size
        req.reservation_time req.preferred_view).tables.isEmpty
    · rw [if_pos hemp]
      exact ⟨rfl, rfl, rfl⟩
    · rw [if_neg hemp]
      have hb : ((find_best_table_combination db req.party_size
          req.reservation_time req.preferred_view).is_exact_match &&
            decide ((find_best_table_combination db req.party_size
              req.reservation_time req.preferred_view).tables.length = 1)) =
          false := by
        cases hex : (find_best_table_combination db req.party_size
            req.reservation_time req.preferred_view).is_exact_match
        · simp
        · have hl : (find_best_table_combination db req.party_size
              req.reservation_time req.preferred_view).tables.length ≠ 1 :=
            fun hc => hne ⟨hex, hc⟩
          simp [hl]
      rw [if_neg (by rw [hb]; decide)]
      exact ⟨rfl, rfl, rfl⟩
  · rintro ⟨hex, hlen⟩
    simp only [create_reservation, htid]
    rcases htab : (find_best_table_combination db req.party_size
        req.reservation_time req.preferred_view).tables with _ | ⟨t, rest⟩
    · rw [htab] at hlen
      simp at hlen
    · cases rest with
      | cons y ys =>
          rw [htab] at hlen
          simp at hlen
      | nil =>
          rw [if_neg (by simp)]
          rw [if_pos (by rw [hex]; simp)]
          refine ⟨rfl, mkReservation (db.reservations ++ []) req t.id now,
            rfl, rfl, by simp⟩

/-- C10 witness: a two-table (non-exact) suggestion commits nothing,
while a lone exact 4-seater is auto-booked. -/
theorem c10_auto_book_exact_only_witness :
    ((create_reservation exDB4 []
        ⟨"N", "n@example.com", "+10000007", 1200, 4, none, none, []⟩ 0).success =
      false ∧
     (create_reservation exDB4 []
        ⟨"N", "n@example.com", "+10000007", 1200, 4, none, none, []⟩ 0).db =
      exDB4 ∧
     (create_reservation exDB4 []
        ⟨"N", "n@example.com", "+10000007", 1200, 4, none, none, []⟩ 0).suggestions =
      some (find_best_table_combination exDB4 4 1200 none)) ∧
    ((create_reservation (DB.mk [⟨1, 4, "garden", true⟩] []) []
        ⟨"N", "n@example.com", "+10000007", 1200, 4, none, none, []⟩ 0).success =
      true ∧
     ∃ res, (create_reservation (DB.mk [⟨1, 4, "garden", true⟩] []) []
        ⟨"N", "n@example.com", "+10000007", 1200, 4, none, none, []⟩ 0).reservation =
          some res ∧
        res.status = "confirmed" ∧
        (create_reservation (DB.mk [⟨1, 4, "garden", true⟩] []) []
          ⟨"N", "n@example.com", "+10000007", 1200, 4, none, none, []⟩ 0).db.reservations =
          (DB.mk [⟨1, 4, "garden", true⟩] []).reservations ++ [res]) :=
  ⟨(c10_auto_book_exact_only exDB4
      ⟨"N", "n@example.com", "+10000007", 1200, 4, none, none, []⟩ 0 rfl).1
      (by decide),
   (c10_auto_book_exact_only (DB.mk [⟨1, 4, "garden", true⟩] [])
      ⟨"N", "n@example.com", "+10000007", 1200, 4, none, none, []⟩ 0 rfl).2
      (by decide)⟩
